import Mathlib

/-!
# Verification of the rust-rocksdb binding and the storage engine it fronts

Shallow embedding of the reviewed repository (`src/open_util.rs`, `src/db.rs`,
`src/transaction_db.rs`, `src/ops/transaction.rs`, and the behaviour pinned by
`tests/test_optimistic_transaction.rs`).  The binding delegates the engine core
(transaction coordinator, MVCC snapshots, write-ahead log) to the native
library; those parts are modelled from the specification, with the repository's
tests fixing the observable behaviour where they exercise it.
-/

set_option autoImplicit false
set_option maxRecDepth 8000

namespace RocksModel

/-- Keys and values are arbitrary byte sequences (spec §3). -/
abbrev Bytes := List Nat

/-- Error taxonomy from spec §7, plus the merge-in-progress failure that
`tests/test_optimistic_transaction.rs` (`test_optimistic_transaction_merge`)
observes from a transactional `get` over pending merge operands, and the
failure of `rollback_to_savepoint` with no savepoint set. -/
inductive Err where
  | notFound
  | busy
  | conflict
  | corruption
  | ioError
  | invalidOperation
  | outOfRange
  | mergeInProgress
  | noSavepoint
  deriving DecidableEq, Repr

/-- A user merge function: `(key, existing_value, operands) -> Option value`
(spec §4.5). -/
abbrev MergeFn := Bytes → Option Bytes → List Bytes → Option Bytes

/-- A pending, not-yet-durable write inside a transaction:
`(value | tombstone | merge-operand)` (spec §3, Transaction). -/
inductive PendingWrite where
  | put (v : Bytes)
  | del
  | mergeOp (o : Bytes)
  deriving DecidableEq, Repr

/-- Committed per-key state: an optional base value followed by the ordered
merge-operand stream accumulated since the last full write (spec §3,
Merge Operand Stream). `base = none` with no operands is a tombstone. -/
structure DbVal where
  base : Option Bytes
  operands : List Bytes
  deriving DecidableEq, Repr

/-- Committed database state of one column family: an association list from
key to its current record; the most recent binding for a key is first. -/
abbrev DB := List (Bytes × DbVal)

/-- Modelled from the spec: applying one committed write to the store
(spec §4.1 write path; merge appends to the key's operand stream, put and
delete reset it). -/
def applyWrite (db : DB) (k : Bytes) (w : PendingWrite) : DB :=
  match w with
  | .put v => (k, ⟨some v, []⟩) :: db
  | .del => (k, ⟨none, []⟩) :: db
  | .mergeOp o =>
    match db.lookup k with
    | some dv => (k, ⟨dv.base, dv.operands ++ [o]⟩) :: db
    | none => (k, ⟨none, [o]⟩) :: db

/-- Modelled from the spec: a write batch applied atomically, in order
(spec §3, Write Batch). -/
def applyWrites (db : DB) (ws : List (Bytes × PendingWrite)) : DB :=
  ws.foldl (fun d p => applyWrite d p.1 p.2) db

/-- Modelled from the spec: committed-state point read.  A pending operand
stream is collapsed through the registered merge function at read time; a
merge function returning `none` where a value was expected surfaces as
`Corruption` (spec §4.1, §4.5). -/
def dbGet (m : MergeFn) (db : DB) (k : Bytes) : Except Err (Option Bytes) :=
  match db.lookup k with
  | none => .ok none
  | some ⟨b, []⟩ => .ok b
  | some ⟨b, ops⟩ =>
    match m k b ops with
    | some v => .ok (some v)
    | none => .error .corruption

/-- Modelled from the spec: a transaction's in-progress, not-yet-durable
write set (in issue order) and its savepoint stack of write-set lengths
(spec §3 Transaction, §4.4 Savepoints).  The engine missing from `src/` is
the native transaction object; its observable lifecycle is fixed by
`tests/test_optimistic_transaction.rs`. -/
structure Txn where
  writes : List (Bytes × PendingWrite)
  savepoints : List Nat
  deriving DecidableEq, Repr

/-- A freshly begun transaction: empty write set, no savepoints. -/
def Txn.new : Txn := ⟨[], []⟩

/-- `put` on a transaction: append to the local write set. -/
def txPut (t : Txn) (k v : Bytes) : Txn :=
  { t with writes := t.writes ++ [(k, .put v)] }

/-- `delete` on a transaction: append a tombstone to the local write set. -/
def txDelete (t : Txn) (k : Bytes) : Txn :=
  { t with writes := t.writes ++ [(k, .del)] }

/-- `merge` on a transaction: append a merge operand to the local write set. -/
def txMerge (t : Txn) (k o : Bytes) : Txn :=
  { t with writes := t.writes ++ [(k, .mergeOp o)] }

/-- Append a list of writes to a transaction, in order. -/
def txAppendWrites (t : Txn) (ws : List (Bytes × PendingWrite)) : Txn :=
  { t with writes := t.writes ++ ws }

/-- `set_savepoint`: push a marker capturing the current write-set length
(spec §4.4 Savepoints). -/
def setSavepoint (t : Txn) : Txn :=
  { t with savepoints := t.writes.length :: t.savepoints }

/-- `rollback_to_savepoint`: truncate the write set back to the most recent
marker; fails when no savepoint has been set (spec §4.4 Savepoints). -/
def rollbackToSavepoint (t : Txn) : Except Err Txn :=
  match t.savepoints with
  | [] => .error .noSavepoint
  | n :: rest => .ok ⟨t.writes.take n, rest⟩

/-- Modelled from the spec: transactional `get` — the local overlay is
checked before falling through to the engine's committed state (spec §4.4,
read-your-writes).  The most recent local record for the key decides:
a put is returned, a tombstone reads as absent, and a pending merge operand
makes the read fail, as `test_optimistic_transaction_merge` requires
(`trans.get(b"k1").err().unwrap()` between `merge` and `commit`). -/
def txGet (m : MergeFn) (db : DB) (t : Txn) (k : Bytes) :
    Except Err (Option Bytes) :=
  match t.writes.reverse.find? (fun p => p.1 == k) with
  | some (_, .put v) => .ok (some v)
  | some (_, .del) => .ok none
  | some (_, .mergeOp _) => .error .mergeInProgress
  | none => dbGet m db k

/-- Modelled from the spec: `commit` applies the write set atomically to the
committed state; the transaction object afterwards holds an empty write set
and no savepoints, and — as `test_optimistic_transaction_cf` and
`test_optimistic_transaction_merge` show by writing, reading and committing
again on the same object — remains usable. -/
def txCommit (db : DB) (t : Txn) : DB × Txn :=
  (applyWrites db t.writes, Txn.new)

/-- Modelled from the spec: `rollback` discards the write set without
touching the committed state (spec §4.4); the object remains usable, as
`test_optimistic_transaction_rollback_savepoint` shows by deleting and
committing after a rollback. -/
def txRollback (_t : Txn) : Txn := Txn.new

/-- The concatenating merge function used by
`test_optimistic_transaction_merge` (`concat_merge`): existing value bytes
followed by every operand's bytes. -/
def concatMerge : MergeFn :=
  fun _ existing ops => some ((existing.getD []).append ops.flatten)

/-- A committed versioned operation: full write or tombstone (spec §3). -/
inductive VOp where
  | put (v : Bytes)
  | del
  deriving DecidableEq, Repr

/-- Modelled from the spec: the MVCC store — a monotonically increasing
sequence counter and the history of committed, sequence-stamped writes
(spec §3, Sequence Number; compaction never removes a version visible to a
live snapshot, so the model keeps the whole history). -/
structure MvccDB where
  latestSeq : Nat
  hist : List (Nat × Bytes × VOp)
  deriving DecidableEq, Repr

/-- Modelled from the spec: committing one write stamps it with the next
sequence number and appends it (spec §3, §5: one global ordering point). -/
def MvccDB.write (db : MvccDB) (k : Bytes) (op : VOp) : MvccDB :=
  ⟨db.latestSeq + 1, (db.latestSeq + 1, k, op) :: db.hist⟩

/-- Committing a list of writes one after another. -/
def writeMany (db : MvccDB) (ws : List (Bytes × VOp)) : MvccDB :=
  ws.foldl (fun d p => d.write p.1 p.2) db

/-- `create_snapshot` captures the current sequence number (spec §4.2). -/
def snapshotSeq (db : MvccDB) : Nat := db.latestSeq

/-- A record is visible to a read at horizon `S` for key `k` when it is a
version of `k` with sequence number at most `S` (spec §4.1). -/
def visibleTo (S : Nat) (k : Bytes) (r : Nat × Bytes × VOp) : Bool :=
  r.2.1 == k && decide (r.1 ≤ S)

/-- Modelled from the spec: a read at a snapshot returns the value of the
latest write with sequence number at most `S`; a tombstone reads as absent
(spec §3 Snapshot, §4.1 read-path invariant). -/
def readAtSeq (db : MvccDB) (S : Nat) (k : Bytes) : Option Bytes :=
  match (db.hist.filter (visibleTo S k)).argmax (fun r => r.1) with
  | none => none
  | some (_, _, .put v) => some v
  | some (_, _, .del) => none

/-- Modelled from the spec: committed state as the optimistic transaction
coordinator sees it — per key, the current value and the sequence number of
the last committed write to it (spec §4.4, Optimistic path). -/
structure OccDB where
  latestSeq : Nat
  data : List (Bytes × Bytes × Nat)
  deriving DecidableEq, Repr

/-- Sequence number of the last committed write to `k`; 0 when `k` was
never written (committed sequence numbers start at 1). -/
def dbLastSeq (db : OccDB) (k : Bytes) : Nat :=
  match db.data.lookup k with
  | some p => p.2
  | none => 0

/-- Modelled from the spec: an optimistic transaction — the set of keys it
has read or written, each with the sequence number observed when first
touched, and its ordered write set (spec §3 Transaction, Optimistic). -/
structure OptTxn where
  tracked : List (Bytes × Nat)
  writeSet : List (Bytes × Bytes)
  deriving DecidableEq, Repr

/-- A freshly begun optimistic transaction. -/
def OptTxn.new : OptTxn := ⟨[], []⟩

/-- Record `k` in the tracked set at the current sequence number, at the
first touch only. -/
def trackKey (db : OccDB) (t : OptTxn) (k : Bytes) : OptTxn :=
  if (t.tracked.lookup k).isSome then t
  else { t with tracked := (k, db.latestSeq) :: t.tracked }

/-- `put` on an optimistic transaction: track the key and append to the
write set; no lock is taken (spec §3, Optimistic). -/
def occPut (db : OccDB) (t : OptTxn) (k v : Bytes) : OptTxn :=
  let t1 := trackKey db t k
  { t1 with writeSet := t1.writeSet ++ [(k, v)] }

/-- `get` on an optimistic transaction: track the key and read through the
local overlay before the committed state (spec §4.4). -/
def occRead (db : OccDB) (t : OptTxn) (k : Bytes) : Option Bytes × OptTxn :=
  (match t.writeSet.reverse.find? (fun p => p.1 == k) with
   | some p => some p.2
   | none => (db.data.lookup k).map (fun p => p.1),
   trackKey db t k)

/-- Modelled from the spec: commit-time validation — every tracked key must
still have the sequence number observed when it was touched, i.e. no
intervening committed write bumped it (spec §4.4, Optimistic path). -/
def occValidate (db : OccDB) (t : OptTxn) : Bool :=
  t.tracked.all (fun p => dbLastSeq db p.1 ≤ p.2)

/-- Apply a validated write set atomically: the whole batch becomes visible
at one new sequence number (spec §3, Write Batch). -/
def occApply (db : OccDB) (t : OptTxn) : OccDB :=
  ⟨db.latestSeq + 1,
   t.writeSet.foldl (fun d p => (p.1, p.2, db.latestSeq + 1) :: d) db.data⟩

/-- Modelled from the spec: optimistic `commit` — validate then apply in one
indivisible step; on validation failure return Conflict with nothing
applied (spec §4.4, Optimistic path; `test_optimistic_transaction`). -/
def occCommit (db : OccDB) (t : OptTxn) : OccDB × Option Err :=
  if occValidate db t then (occApply db t, none) else (db, some .conflict)

/-- Keys written by an optimistic transaction. -/
def writeKeys (t : OptTxn) : List Bytes := t.writeSet.map (fun p => p.1)

/-- Keys read or written (touched) by an optimistic transaction. -/
def touchedKeys (t : OptTxn) : List Bytes := t.tracked.map (fun p => p.1)

/-- `DEFAULT_COLUMN_FAMILY_NAME` used by `src/open_util.rs`. -/
def DEFAULT_COLUMN_FAMILY_NAME : String := "default"

/-- Translated from `src/open_util.rs`: a column-family descriptor; only the
name matters for the column-family map (the options are opaque FFI state). -/
structure ColumnFamilyDescriptor where
  name : String
  deriving DecidableEq, Repr

/-- Translated from `src/open_util.rs` `open_cf_descriptors_internal`
(lines 61-112): the keys of the `cf_map` built for the returned handle,
with the raw FFI opens abstracted as succeeding.  When the descriptor list
is empty the plain `open_raw` path is taken and `cf_map` stays empty;
otherwise a descriptor for the default family is pushed at the end when the
caller omitted it, and one entry per descriptor is inserted. -/
def openCfMap (cfs : List ColumnFamilyDescriptor) : List String :=
  if cfs.isEmpty then []
  else
    let cfs_v :=
      if cfs.any (fun cf => cf.name == DEFAULT_COLUMN_FAMILY_NAME) then cfs
      else cfs ++ [⟨DEFAULT_COLUMN_FAMILY_NAME⟩]
    cfs_v.map (fun cf => cf.name)

/-- Filesystem state at the database path as the open path observes it:
whether the directory exists and whether a database exists in it. -/
structure FsState where
  dirExists : Bool
  dbExists : Bool
  deriving DecidableEq, Repr

/-- The one open option the open path inspects (`create_if_missing`). -/
structure OpenOptions where
  createIfMissing : Bool
  deriving DecidableEq, Repr

/-- `fs::create_dir_all`: afterwards the directory exists. -/
def createDirAll (fs : FsState) : FsState := { fs with dirExists := true }

/-- Modelled from the spec: the native raw open, which is not part of the
binding — succeeds on an existing database, creates one when the options
are configured to, and otherwise fails with NotFound (spec §6, Open). -/
def openRawNative (opts : OpenOptions) (fs : FsState) : Except Err FsState :=
  if fs.dbExists then .ok fs
  else if opts.createIfMissing then .ok { fs with dbExists := true }
  else .error .notFound

/-- Translated from `src/open_util.rs` `open_cf_descriptors_internal`
(lines 52-65): convert the path, call `fs::create_dir_all` unconditionally,
then the raw open.  Returns the filesystem state left behind together with
the outcome. -/
def openModel (opts : OpenOptions) (fs : FsState) : FsState × Except Err Unit :=
  let fs1 := createDirAll fs
  match openRawNative opts fs1 with
  | .ok fs2 => (fs2, .ok ())
  | .error e => (fs1, .error e)

/-- Translated from `src/db.rs` `DB::open_default` (lines 511-515): default
options with `create_if_missing` set to true, then open. -/
def openDefaultModel (fs : FsState) : FsState × Except Err Unit :=
  openModel ⟨true⟩ fs

/-- The capability traits of `src/db.rs` (the `Delegate` fan-out plus the
methods added by `impl_common_methods`), one constructor per trait. -/
inductive Capability where
  | backup
  | checkpoint
  | createColumnFamily
  | dropColumnFamily
  | getColumnFamily
  | compactRangeCF
  | compactRange
  | deleteCF
  | delete
  | deleteRangeCF
  | deleteFileInRange
  | deleteFileInRangeCF
  | flushCF
  | flush
  | getPinnedCF
  | getPinned
  | ingestExternalFileCF
  | ingestExternalFile
  | iterate
  | iterateCF
  | mergeCF
  | merge
  | getProperty
  | getPropertyCF
  | perf
  | putCF
  | put
  | setOptions
  | setOptionsCF
  | writeBatchWrite
  | multiGet
  | multiGetCF
  | snapshot
  deriving DecidableEq, Repr, Fintype

/-- Translated from `src/db.rs` lines 473-507: the traits delegated to the
read-write `DB` type, plus the `impl_common_methods` additions. -/
def dbCapabilities : List Capability :=
  [.backup, .checkpoint, .createColumnFamily, .dropColumnFamily,
   .getColumnFamily, .compactRangeCF, .compactRange, .deleteCF, .delete,
   .deleteRangeCF, .deleteFileInRange, .deleteFileInRangeCF, .flushCF,
   .flush, .getPinnedCF, .getPinned, .ingestExternalFileCF,
   .ingestExternalFile, .iterate, .iterateCF, .mergeCF, .merge,
   .getProperty, .getPropertyCF, .perf, .putCF, .put, .setOptions,
   .setOptionsCF, .writeBatchWrite, .multiGet, .multiGetCF, .snapshot]

/-- Translated from `src/db.rs` lines 548-562: the traits delegated to
`ReadOnlyDB`, plus the `impl_common_methods` additions. -/
def readOnlyDBCapabilities : List Capability :=
  [.backup, .checkpoint, .getColumnFamily, .getPinnedCF, .getPinned,
   .iterate, .iterateCF, .getProperty, .getPropertyCF, .perf,
   .multiGet, .multiGetCF, .snapshot]

/-- Whether a capability mutates database state: puts, deletes, merges,
write batches, flushes, compaction triggers, file ingestion, option and
column-family mutation. -/
def isWriteCapability : Capability → Bool
  | .createColumnFamily => true
  | .dropColumnFamily => true
  | .compactRangeCF => true
  | .compactRange => true
  | .deleteCF => true
  | .delete => true
  | .deleteRangeCF => true
  | .deleteFileInRange => true
  | .deleteFileInRangeCF => true
  | .flushCF => true
  | .flush => true
  | .ingestExternalFileCF => true
  | .ingestExternalFile => true
  | .mergeCF => true
  | .merge => true
  | .putCF => true
  | .put => true
  | .setOptions => true
  | .setOptionsCF => true
  | .writeBatchWrite => true
  | _ => false

/-- Modelled from the spec: the native engine behind a read-only handle —
every write operation is rejected with the fixed InvalidOperation error,
every read operation is served (spec §6, read-only open mode). -/
def readOnlyApply (c : Capability) : Except Err Unit :=
  if isWriteCapability c then .error .invalidOperation else .ok ()

/-- A write batch as recorded in the log: its operations in order. -/
abbrev WriteBatchRec := List (Bytes × PendingWrite)

/-- Modelled from the spec: the retained write-ahead-log history — the
sequence-stamped batches still on disk and the oldest retained sequence
number (spec §6, Change stream). -/
structure WalState where
  batches : List (Nat × WriteBatchRec)
  oldestRetainedSeq : Nat
  deriving DecidableEq, Repr

/-- Modelled from the spec and the doc comment of
`src/db.rs` `DBInner::get_updates_since` (lines 206-225): the batches
committed since `seq`, or OutOfRange when `seq` predates the oldest
retained log data. -/
def getUpdatesSince (w : WalState) (seq : Nat) :
    Except Err (List (Nat × WriteBatchRec)) :=
  if seq < w.oldestRetainedSeq then .error .outOfRange
  else .ok (w.batches.filter (fun b => decide (seq ≤ b.1)))

/-- Translated from `src/ops/transaction.rs`: `WriteOptions` with its
opaque FFI pointer modelled as a number; `WriteOptions::default()` is a
fixed value. -/
structure WriteOptions where
  inner : Nat
  deriving DecidableEq, Repr

/-- `WriteOptions::default()`. -/
def WriteOptions.default : WriteOptions := ⟨0⟩

/-- Translated from `src/ops/transaction.rs`: pessimistic
`TransactionOptions`, FFI pointer modelled as a number. -/
structure TransactionOptions where
  inner : Nat
  deriving DecidableEq, Repr

/-- `TransactionOptions::default()`. -/
def TransactionOptions.default : TransactionOptions := ⟨0⟩

/-- Translated from `src/ops/transaction.rs`:
`OptimisticTransactionOptions`, FFI pointer modelled as a number. -/
structure OptimisticTransactionOptions where
  inner : Nat
  deriving DecidableEq, Repr

/-- `OptimisticTransactionOptions::default()`. -/
def OptimisticTransactionOptions.default : OptimisticTransactionOptions := ⟨0⟩

/-- Translated from `src/ops/transaction.rs`: the `Transaction` handle
returned by `Transaction::new(inner)`. -/
structure TransactionHandle where
  inner : Nat
  deriving DecidableEq, Repr

/-- Translated from `src/transaction_db.rs`: a `TransactionDB`, carrying the
native `rocksdb_transaction_begin` of its handle as an abstract function of
the two option pointers. -/
structure TransactionDB where
  beginRawTxn : Nat → Nat → Nat

/-- Translated from `src/ops/transaction.rs` lines 35-51:
`TransactionDB::transaction_opt` calls `rocksdb_transaction_begin` with the
write-option and transaction-option pointers and wraps the result. -/
def TransactionDB.transaction_opt (db : TransactionDB) (w : WriteOptions)
    (t : TransactionOptions) : TransactionHandle :=
  ⟨db.beginRawTxn w.inner t.inner⟩

/-- Translated from `src/ops/transaction.rs` lines 29-33:
`TransactionDB::transaction()` delegates to `transaction_opt` with default
write options and default transaction options. -/
def TransactionDB.transaction (db : TransactionDB) : TransactionHandle :=
  db.transaction_opt WriteOptions.default TransactionOptions.default

/-- Translated from `src/db.rs`: an `OptimisticTransactionDB`, carrying the
native `rocksdb_optimistictransaction_begin` of its handle as an abstract
function of the two option pointers. -/
structure OptimisticTransactionDB where
  beginRawTxn : Nat → Nat → Nat

/-- Translated from `src/ops/transaction.rs` lines 62-78:
`OptimisticTransactionDB::transaction_opt`. -/
def OptimisticTransactionDB.transaction_opt (db : OptimisticTransactionDB)
    (w : WriteOptions) (t : OptimisticTransactionOptions) : TransactionHandle :=
  ⟨db.beginRawTxn w.inner t.inner⟩

/-- Translated from `src/ops/transaction.rs` lines 53-60:
`OptimisticTransactionDB::transaction()` delegates to `transaction_opt`
with default write options and default optimistic transaction options. -/
def OptimisticTransactionDB.transaction (db : OptimisticTransactionDB) :
    TransactionHandle :=
  db.transaction_opt WriteOptions.default OptimisticTransactionOptions.default

/-- The transaction built by `test_optimistic_transaction_merge`: put `"a"`
on key `"k1"` then merge operands `"b"`, `"c"`, `"d"`, `"efg"`. -/
def mergeTestTxn : Txn :=
  txMerge (txMerge (txMerge (txMerge (txPut Txn.new [107, 49] [97])
    [107, 49] [98]) [107, 49] [99]) [107, 49] [100]) [107, 49] [101, 102, 103]

deriving instance DecidableEq for Except

/-- C10: for both `TransactionDB` and `OptimisticTransactionDB`, the
no-argument `transaction()` constructor returns the very same transaction
handle as `transaction_opt` called with default write options and default
transaction options, so every subsequent operation behaves identically on
the two. -/
theorem c10_transaction_default_equiv :
    (∀ db : TransactionDB,
      db.transaction =
        db.transaction_opt WriteOptions.default TransactionOptions.default)
    ∧ (∀ db : OptimisticTransactionDB,
      db.transaction =
        db.transaction_opt WriteOptions.default
          OptimisticTransactionOptions.default)
    ∧ (∀ (db : TransactionDB) (α : Type) (op : TransactionHandle → α),
      op db.transaction =
        op (db.transaction_opt WriteOptions.default
          TransactionOptions.default))
    ∧ (∀ (db : OptimisticTransactionDB) (α : Type)
        (op : TransactionHandle → α),
      op db.transaction =
        op (db.transaction_opt WriteOptions.default
          OptimisticTransactionOptions.default)) :=
  ⟨fun _ => rfl, fun _ => rfl, fun _ _ _ => rfl, fun _ _ _ => rfl⟩

/-- C5 counterexample: opening with the EMPTY descriptor list takes the
plain `open_raw` path of `open_cf_descriptors_internal`
(`src/open_util.rs` lines 64-65) and leaves the column-family map empty,
so the resulting handle's map has no entry for the default family. -/
theorem c5_empty_list_map_has_no_default :
    openCfMap [] = [] ∧ DEFAULT_COLUMN_FAMILY_NAME ∉ openCfMap [] := by
  decide

/-- C5 amended: for every NON-EMPTY descriptor list, opening auto-adds the
default column family when the caller omitted it, and the resulting
column-family map contains an entry for the default family as well as one
per caller descriptor; for the empty list the map is empty. -/
theorem c5_open_adds_default_family (cfs : List ColumnFamilyDescriptor)
    (h : cfs ≠ []) :
    DEFAULT_COLUMN_FAMILY_NAME ∈ openCfMap cfs
    ∧ (∀ d ∈ cfs, d.name ∈ openCfMap cfs)
    ∧ openCfMap [] = [] := by
  have hne : cfs.isEmpty = false := by
    cases cfs with
    | nil => exact absurd rfl h
    | cons a l => rfl
  unfold openCfMap
  simp only [hne, Bool.false_eq_true, if_false, List.isEmpty_nil, if_true]
  cases hd : cfs.any (fun cf => cf.name == DEFAULT_COLUMN_FAMILY_NAME) with
  | true =>
    obtain ⟨cf, hmem, hbeq⟩ := List.any_eq_true.mp hd
    refine ⟨?_, fun d hdm => List.mem_map_of_mem _ hdm, trivial⟩
    have hcf : cf.name = DEFAULT_COLUMN_FAMILY_NAME := by
      exact eq_of_beq hbeq
    exact hcf ▸ List.mem_map_of_mem _ hmem
  | false =>
    refine ⟨?_, fun d hdm => ?_, trivial⟩
    · simp
    · exact List.mem_map_of_mem _ (List.mem_append_left _ hdm)

/-- C5 witness: instantiating the amended theorem at the one-element list
`[cf1]`, whose map gains the auto-added default entry. -/
theorem c5_open_adds_default_family_witness :
    DEFAULT_COLUMN_FAMILY_NAME ∈ openCfMap [⟨"cf1"⟩]
    ∧ (∀ d ∈ [(⟨"cf1"⟩ : ColumnFamilyDescriptor)],
        d.name ∈ openCfMap [⟨"cf1"⟩])
    ∧ openCfMap [] = [] :=
  c5_open_adds_default_family [⟨"cf1"⟩] (List.cons_ne_nil _ _)

/-- C6 counterexample: with the path missing and the options NOT configured
to create (`create_if_missing = false`), open still creates the directory
at the path — `open_cf_descriptors_internal` calls `fs::create_dir_all`
unconditionally (`src/open_util.rs` lines 54-59) before the raw open
fails — contradicting "fails with NotFound without creating anything at
the path". -/
theorem c6_open_creates_path_unconditionally :
    (openModel ⟨false⟩ ⟨false, false⟩).1.dirExists = true
    ∧ (openModel ⟨false⟩ ⟨false, false⟩).2 = .error .notFound
    ∧ (FsState.mk false false).dirExists = false := by
  decide

/-- C6 amended: open always creates the directory at the path
(`fs::create_dir_all` runs unconditionally, before any option is
consulted); when no database exists there and the options are not
configured to create one, the subsequent raw open fails with NotFound and
no database is created — but the directory has been; when configured to
create, or when a database already exists, open succeeds.  `open_default`
opens with `create_if_missing` set to true. -/
theorem c6_open_path_creation (opts : OpenOptions) (fs : FsState) :
    (openModel opts fs).1.dirExists = true
    ∧ (fs.dbExists = false → opts.createIfMissing = false →
        (openModel opts fs).2 = .error .notFound
        ∧ (openModel opts fs).1.dbExists = false)
    ∧ (opts.createIfMissing = true → (openModel opts fs).2 = .ok ())
    ∧ (fs.dbExists = true → (openModel opts fs).2 = .ok ())
    ∧ openDefaultModel fs = openModel ⟨true⟩ fs := by
  obtain ⟨d, b⟩ := fs
  obtain ⟨c⟩ := opts
  cases b <;> cases c <;>
    simp [openModel, openRawNative, createDirAll, openDefaultModel]

/-- C6 witness: the amended theorem at the missing-path, not-configured
input, hypotheses discharged. -/
theorem c6_open_path_creation_witness :
    (openModel ⟨false⟩ ⟨false, false⟩).1.dirExists = true
    ∧ (openModel ⟨false⟩ ⟨false, false⟩).2 = .error .notFound
    ∧ (openModel ⟨false⟩ ⟨false, false⟩).1.dbExists = false :=
  ⟨(c6_open_path_creation ⟨false⟩ ⟨false, false⟩).1,
   ((c6_open_path_creation ⟨false⟩ ⟨false, false⟩).2.1 rfl rfl).1,
   ((c6_open_path_creation ⟨false⟩ ⟨false, false⟩).2.1 rfl rfl).2⟩

/-- C2 counterexample: the commit state is not terminal.  Replaying
`test_optimistic_transaction_cf` (lines 147-156): after a successful
commit of `put k1 v1` on a transaction object, a `get` on the same object
still succeeds (returning `v1`), and a subsequent `delete` followed by a
SECOND `commit` on the same object succeeds and applies the delete. -/
theorem c2_commit_not_terminal :
    txGet concatMerge (txCommit [] (txPut Txn.new [107, 49] [118, 49])).1
        (txCommit [] (txPut Txn.new [107, 49] [118, 49])).2 [107, 49]
      = .ok (some [118, 49])
    ∧ dbGet concatMerge
        (txCommit (txCommit [] (txPut Txn.new [107, 49] [118, 49])).1
          (txDelete (txCommit [] (txPut Txn.new [107, 49] [118, 49])).2
            [107, 49])).1 [107, 49]
      = .ok none := by
  decide

/-- C2 amended: commit and rollback do NOT leave the transaction in a
terminal state.  Both reset the object to a freshly begun transaction
(write set and savepoints cleared), and subsequent put, get and commit
operations on the same object succeed, behaving exactly as on a newly
begun transaction: a put issued after the commit is visible to the
object's own get, and a second commit applies it to the committed state. -/
theorem c2_commit_rollback_reset (db : DB) (t : Txn) (m : MergeFn)
    (k v : Bytes) :
    (txCommit db t).2 = Txn.new
    ∧ txRollback t = Txn.new
    ∧ txGet m (txCommit db t).1 (txPut (txCommit db t).2 k v) k
        = .ok (some v)
    ∧ dbGet m
        (txCommit (txCommit db t).1 (txPut (txCommit db t).2 k v)).1 k
      = .ok (some v) := by
  refine ⟨rfl, rfl, ?_, ?_⟩
  · simp [txGet, txPut, txCommit, Txn.new]
  · simp [dbGet, txCommit, txPut, Txn.new, applyWrites, applyWrite,
      List.lookup]

/-- C7 counterexample: read-your-writes does not extend to pending merge
operands.  The transaction of `test_optimistic_transaction_merge` — put
`"a"` then merge `"b"`, `"c"`, `"d"`, `"efg"` on `"k1"`, all uncommitted —
makes `get` on that same transaction FAIL rather than return the
materialized value, exactly as the test asserts
(`trans.get(b"k1").err().unwrap()`). -/
theorem c7_pending_merge_get_fails :
    txGet concatMerge [] mergeTestTxn [107, 49] = .error .mergeInProgress := by
  decide

/-- C7 amended: a transaction's own pending puts and deletes are visible to
its own get before commit (read-your-writes through the local overlay,
before falling through to committed state), but when the key's most recent
pending record is a merge operand the get FAILS with an error instead of
materializing; merge operands are resolved by the registered merge
function only against committed state, so after commit the get returns the
collapsed value (`"abcdefg"` in the test). -/
theorem c7_read_your_writes (m : MergeFn) (db : DB) (t : Txn)
    (k v o : Bytes) :
    txGet m db (txPut t k v) k = .ok (some v)
    ∧ txGet m db (txDelete t k) k = .ok none
    ∧ txGet m db (txMerge t k o) k = .error .mergeInProgress
    ∧ dbGet concatMerge (txCommit [] mergeTestTxn).1 [107, 49]
        = .ok (some [97, 98, 99, 100, 101, 102, 103]) := by
  refine ⟨?_, ?_, ?_, by decide⟩ <;>
    simp [txGet, txPut, txDelete, txMerge]

/-- C3: every write issued after `set_savepoint` is fully undone by
`rollback_to_savepoint` — the transaction returns exactly to its state at
the savepoint, so every write issued before the savepoint persists through
a subsequent commit; `rollback_to_savepoint` fails when no savepoint has
been set; and the spec's example `put(k1,v1); set_savepoint; put(k2,v2);
rollback_to_savepoint; commit` yields `k1` present with `v1` and `k2`
absent. -/
theorem c3_savepoint_rollback (t : Txn) (ws : List (Bytes × PendingWrite))
    (t0 : Txn) (h0 : t0.savepoints = []) (m : MergeFn)
    (k1 v1 k2 v2 : Bytes) (hk : k1 ≠ k2) :
    rollbackToSavepoint (txAppendWrites (setSavepoint t) ws) = .ok t
    ∧ rollbackToSavepoint t0 = .error .noSavepoint
    ∧ rollbackToSavepoint (txPut (setSavepoint (txPut Txn.new k1 v1)) k2 v2)
        = .ok (txPut Txn.new k1 v1)
    ∧ dbGet m (txCommit [] (txPut Txn.new k1 v1)).1 k1 = .ok (some v1)
    ∧ dbGet m (txCommit [] (txPut Txn.new k1 v1)).1 k2 = .ok none := by
  refine ⟨?_, ?_, rfl, ?_, ?_⟩
  · simp [rollbackToSavepoint, txAppendWrites, setSavepoint, List.take_left]
  · simp [rollbackToSavepoint, h0]
  · simp [dbGet, txCommit, txPut, Txn.new, applyWrites, applyWrite,
      List.lookup]
  · have hne : (k2 == k1) = false := beq_eq_false_iff_ne.mpr (Ne.symm hk)
    simp [dbGet, txCommit, txPut, Txn.new, applyWrites, applyWrite,
      List.lookup, hne]

/-- C3 witness: the savepoint theorem at the concrete instance of the test
(`k1 = [1], v1 = [10], k2 = [2], v2 = [20]`, fresh transaction). -/
theorem c3_savepoint_rollback_witness :
    rollbackToSavepoint (txAppendWrites (setSavepoint Txn.new) []) = .ok Txn.new
    ∧ rollbackToSavepoint Txn.new = .error .noSavepoint
    ∧ rollbackToSavepoint (txPut (setSavepoint (txPut Txn.new [1] [10])) [2] [20])
        = .ok (txPut Txn.new [1] [10])
    ∧ dbGet concatMerge (txCommit [] (txPut Txn.new [1] [10])).1 [1]
        = .ok (some [10])
    ∧ dbGet concatMerge (txCommit [] (txPut Txn.new [1] [10])).1 [2]
        = .ok none :=
  c3_savepoint_rollback Txn.new [] Txn.new rfl concatMerge [1] [10] [2] [20]
    (by decide)

/-- C9: `get_updates_since(seq)` fails with OutOfRange exactly when `seq`
predates the oldest retained log data; otherwise it returns the list of
sequence-stamped batches holding precisely the batches committed at or
after `seq`. -/
theorem c9_get_updates_since_range (w : WalState) (seq : Nat) :
    (seq < w.oldestRetainedSeq →
      getUpdatesSince w seq = .error .outOfRange)
    ∧ (w.oldestRetainedSeq ≤ seq →
      ∃ l, getUpdatesSince w seq = .ok l
        ∧ ∀ b, b ∈ l ↔ b ∈ w.batches ∧ seq ≤ b.1) := by
  constructor
  · intro h
    simp [getUpdatesSince, h]
  · intro h
    refine ⟨w.batches.filter (fun b => decide (seq ≤ b.1)), ?_, ?_⟩
    · simp [getUpdatesSince, Nat.not_lt.mpr h]
    · intro b
      simp [List.mem_filter]

/-- C9 witness: both branches of the range theorem at a concrete retained
log `{batches = [(3, [])], oldest = 2}`. -/
theorem c9_get_updates_since_range_witness :
    getUpdatesSince ⟨[(3, [])], 2⟩ 1 = .error .outOfRange
    ∧ ∃ l, getUpdatesSince ⟨[(3, [])], 2⟩ 3 = .ok l
      ∧ ∀ b, b ∈ l ↔ b ∈ [((3 : Nat), ([] : WriteBatchRec))] ∧ 3 ≤ b.1 :=
  ⟨(c9_get_updates_since_range ⟨[(3, [])], 2⟩ 1).1 (by decide),
   (c9_get_updates_since_range ⟨[(3, [])], 2⟩ 3).2 (by decide)⟩

/-- C8: a read-only handle supports no write capability — no write trait is
delegated to `ReadOnlyDB` and the engine behind a read-only handle rejects
every write operation with the fixed InvalidOperation error — while every
capability the handle does delegate is a read and is served; in particular
get, iterate and property queries remain available. -/
theorem c8_read_only_rejects_writes (c : Capability) :
    (isWriteCapability c = true →
      c ∉ readOnlyDBCapabilities
      ∧ readOnlyApply c = .error .invalidOperation)
    ∧ (c ∈ readOnlyDBCapabilities → readOnlyApply c = .ok ())
    ∧ Capability.getPinned ∈ readOnlyDBCapabilities
    ∧ Capability.iterate ∈ readOnlyDBCapabilities
    ∧ Capability.getProperty ∈ readOnlyDBCapabilities := by
  revert c
  decide

/-- C8 witness: the rejection branch at `put` and the availability branch
at `iterate`. -/
theorem c8_read_only_rejects_writes_witness :
    (Capability.put ∉ readOnlyDBCapabilities
      ∧ readOnlyApply .put = .error .invalidOperation)
    ∧ readOnlyApply .iterate = .ok () :=
  ⟨(c8_read_only_rejects_writes .put).1 (by decide),
   (c8_read_only_rejects_writes .iterate).2.1 (by decide)⟩

/-- Writes committed after a snapshot horizon `S ≤ latestSeq` all carry
sequence numbers above `S`, so they are invisible at `S`: the filtered
visible history is unchanged. -/
theorem filter_hist_writeMany (ws : List (Bytes × VOp)) (db : MvccDB)
    (S : Nat) (k : Bytes) (h : S ≤ db.latestSeq) :
    ((writeMany db ws).hist.filter (visibleTo S k))
      = db.hist.filter (visibleTo S k) := by
  induction ws generalizing db with
  | nil => rfl
  | cons w ws ih =>
    have h1 : S ≤ (db.write w.1 w.2).latestSeq := Nat.le_succ_of_le h
    have h2 := ih (db.write w.1 w.2) h1
    have hstep : writeMany db (w :: ws) = writeMany (db.write w.1 w.2) ws :=
      rfl
    rw [hstep, h2]
    have hf : (decide (db.latestSeq + 1 ≤ S)) = false := by
      simp only [decide_eq_false_iff_not]
      omega
    simp [MvccDB.write, List.filter_cons, visibleTo, hf]

/-- C4: a snapshot pins the sequence number current at creation; a read
through that snapshot returns the value of the latest write with sequence
number at most that horizon, and the view is stable for the snapshot's
entire lifetime — any sequence of writes committed after the snapshot was
taken (each stamped with a strictly larger sequence number) is never
observed through it. -/
theorem c4_snapshot_view_stable (db : MvccDB) (ws : List (Bytes × VOp))
    (k : Bytes) :
    readAtSeq (writeMany db ws) (snapshotSeq db) k
      = readAtSeq db (snapshotSeq db) k := by
  unfold readAtSeq
  rw [filter_hist_writeMany ws db (snapshotSeq db) k (Nat.le_refl _)]

/-- Looking a key up after the commit-time fold when no write in the batch
touches it: the committed data is consulted unchanged. -/
theorem occ_lookup_not_written (wsl : List (Bytes × Bytes))
    (data : List (Bytes × Bytes × Nat)) (s : Nat) (k : Bytes)
    (h : k ∉ wsl.map (fun p => p.1)) :
    (wsl.foldl (fun d p => (p.1, p.2, s) :: d) data).lookup k
      = data.lookup k := by
  induction wsl generalizing data with
  | nil => rfl
  | cons w ws ih =>
    have h1 : k ∉ ws.map (fun p => p.1) := by
      intro hc
      exact h (by simp [hc])
    have h2 : k ≠ w.1 := by
      intro hc
      exact h (by simp [hc])
    have hstep :
        ((w :: ws).foldl (fun d p => (p.1, p.2, s) :: d) data)
          = ws.foldl (fun d p => (p.1, p.2, s) :: d) ((w.1, w.2, s) :: data) :=
      rfl
    rw [hstep, ih _ h1]
    simp [List.lookup, beq_eq_false_iff_ne.mpr h2]

/-- Looking a key up after the commit-time fold when some write in the
batch touches it: the entry found carries the batch's sequence number. -/
theorem occ_lookup_written (wsl : List (Bytes × Bytes))
    (data : List (Bytes × Bytes × Nat)) (s : Nat) (k : Bytes)
    (h : k ∈ wsl.map (fun p => p.1)) :
    ∃ v, (wsl.foldl (fun d p => (p.1, p.2, s) :: d) data).lookup k
      = some (v, s) := by
  induction wsl generalizing data with
  | nil => simp at h
  | cons w ws ih =>
    by_cases hk : k ∈ ws.map (fun p => p.1)
    · exact ih ((w.1, w.2, s) :: data) hk
    · have hkw : k = w.1 := by
        have hh := h
        simp only [List.map_cons, List.mem_cons] at hh
        rcases hh with hkw | hk2
        · exact hkw
        · exact absurd hk2 hk
      refine ⟨w.2, ?_⟩
      have hstep :
          ((w :: ws).foldl (fun d p => (p.1, p.2, s) :: d) data)
            = ws.foldl (fun d p => (p.1, p.2, s) :: d) ((w.1, w.2, s) :: data) :=
        rfl
      rw [hstep, occ_lookup_not_written ws _ s k hk]
      simp [List.lookup, hkw]

/-- After applying a transaction's write set, every written key's last
committed sequence number is the batch's new sequence number. -/
theorem dbLastSeq_occApply_written (db : OccDB) (t : OptTxn) (k : Bytes)
    (h : k ∈ writeKeys t) :
    dbLastSeq (occApply db t) k = db.latestSeq + 1 := by
  obtain ⟨v, hv⟩ := occ_lookup_written t.writeSet db.data (db.latestSeq + 1) k h
  simp [dbLastSeq, occApply, hv]

/-- After applying a transaction's write set, every key it did not write
keeps its last committed sequence number. -/
theorem dbLastSeq_occApply_not_written (db : OccDB) (t : OptTxn) (k : Bytes)
    (h : k ∉ writeKeys t) :
    dbLastSeq (occApply db t) k = dbLastSeq db k := by
  simp [dbLastSeq, occApply,
    occ_lookup_not_written t.writeSet db.data (db.latestSeq + 1) k h]

/-- C1: let T1 commit successfully first.  If T1 wrote a key that T2 read
or wrote before T1's commit, T2's commit returns Conflict and leaves the
committed state untouched; and if T2 touched no key T1 wrote, T2's commit
succeeds (its validation is unaffected by T1) and applies T2's writes. -/
theorem c1_optimistic_conflict (db0 db1 : OccDB) (t1 t2 : OptTxn) (k : Bytes)
    (hc1 : occCommit db0 t1 = (db1, none)) :
    (k ∈ writeKeys t1 →
      k ∈ touchedKeys t2 →
      (∀ p ∈ t2.tracked, p.2 ≤ db0.latestSeq) →
      occCommit db1 t2 = (db1, some .conflict))
    ∧ ((∀ p ∈ t2.tracked, p.1 ∉ writeKeys t1) →
      occValidate db0 t2 = true →
      occCommit db1 t2 = (occApply db1 t2, none)) := by
  have hval1 : occValidate db0 t1 = true := by
    by_cases hv : occValidate db0 t1 = true
    · exact hv
    · rw [occCommit, if_neg hv] at hc1
      exact absurd (congrArg Prod.snd hc1) (by simp)
  have hdb1 : db1 = occApply db0 t1 := by
    rw [occCommit, if_pos hval1] at hc1
    exact (congrArg Prod.fst hc1).symm
  constructor
  · intro hw ht hseq
    obtain ⟨p, hpmem, hpk⟩ := List.mem_map.mp ht
    have hlast : dbLastSeq db1 p.1 = db0.latestSeq + 1 := by
      rw [hdb1]
      exact dbLastSeq_occApply_written db0 t1 p.1 (hpk ▸ hw)
    have hfail : occValidate db1 t2 = false := by
      rcases hb : occValidate db1 t2 with _ | _
      · rfl
      · have := List.all_eq_true.mp hb p hpmem
        have hle : dbLastSeq db1 p.1 ≤ p.2 := by
          simpa using this
        have := hseq p hpmem
        omega
    rw [occCommit, if_neg (by simp [hfail])]
  · intro hdisj hval2
    have hok : occValidate db1 t2 = true := by
      rw [occValidate, List.all_eq_true]
      intro p hpmem
      have hkeep : dbLastSeq db1 p.1 = dbLastSeq db0 p.1 := by
        rw [hdb1]
        exact dbLastSeq_occApply_not_written db0 t1 p.1 (hdisj p hpmem)
      have hold := List.all_eq_true.mp hval2 p hpmem
      simp only [decide_eq_true_eq] at hold ⊢
      omega
    rw [occCommit, if_pos hok]

/-- C1 witness: the scenario of `test_optimistic_transaction` — T2 and T3
both write key `k2` from the same state, T3 commits first, T2's commit
returns Conflict and leaves the state exactly as T3's commit left it;
and a transaction touching a disjoint key commits fine after T3. -/
theorem c1_optimistic_conflict_witness :
    occCommit ⟨1, [([5], [60], 1)]⟩ ⟨[([5], 0)], [([5], [50])]⟩
      = (⟨1, [([5], [60], 1)]⟩, some .conflict)
    ∧ occCommit ⟨1, [([5], [60], 1)]⟩ ⟨[([7], 0)], [([7], [70])]⟩
      = (occApply ⟨1, [([5], [60], 1)]⟩ ⟨[([7], 0)], [([7], [70])]⟩, none) :=
  ⟨(c1_optimistic_conflict ⟨0, []⟩ ⟨1, [([5], [60], 1)]⟩ ⟨[], [([5], [60])]⟩
      ⟨[([5], 0)], [([5], [50])]⟩ [5] (by decide)).1
      (by decide) (by decide) (by decide),
   (c1_optimistic_conflict ⟨0, []⟩ ⟨1, [([5], [60], 1)]⟩ ⟨[], [([5], [60])]⟩
      ⟨[([7], 0)], [([7], [70])]⟩ [5] (by decide)).2
      (by decide) (by decide)⟩

end RocksModel
